import Mathlib

/-!
# Verification of the cesium-learn composition layer

A shallow embedding of the repository's own logic (the deep-merge utility,
the graphic-object registry of the map store, the point/geometry/grid
creation functions and the voxel-grid primitive manager), together with
theorems settling the specification's claims about it.
-/

namespace CesiumLearn

/-! ## JavaScript value model

The `merge` utility of `objectUtils()` operates on arbitrary JavaScript
values.  We model them as a nested inductive: `undefined` is JavaScript's
`undefined`, `null` its `null`, and `obj isArr fields` a (non-null) object;
arrays are objects whose `isArr` flag is set and whose fields are keyed by
the decimal strings of their indices (as in JavaScript, where an array is
an object with index-named properties). -/

inductive JSVal : Type where
  | undefined : JSVal
  | null : JSVal
  | bool : Bool → JSVal
  | num : Int → JSVal
  | str : String → JSVal
  | obj : Bool → List (String × JSVal) → JSVal

namespace JSVal

/-- JavaScript truthiness of a value. -/
def truthy : JSVal → Bool
  | .undefined => false
  | .null => false
  | .bool b => b
  | .num n => n != 0
  | .str s => s != ""
  | .obj _ _ => true

/-- `typeof v === 'object'` (true for `null` as well, as in JavaScript). -/
def isObjectType : JSVal → Bool
  | .null => true
  | .obj _ _ => true
  | _ => false

/-- `Array.isArray v`. -/
def isArrayVal : JSVal → Bool
  | .obj a _ => a
  | _ => false

/-- A non-null, non-array object (the values routed into the deep branch
of `merge`). -/
def isPlainObject : JSVal → Bool
  | .obj false _ => true
  | _ => false

/-- `v === undefined`. -/
def isUndefined : JSVal → Bool
  | .undefined => true
  | _ => false

/-- Property read on a field list: the first binding wins (field lists of
values built from JavaScript objects have distinct keys). -/
def getField : List (String × JSVal) → String → JSVal
  | [], _ => .undefined
  | (k', v) :: rest, k => if k' = k then v else getField rest k

/-- Property read `v[k]`; reading a property of a non-object yields
`undefined` (the embedding is only applied where JavaScript would not
throw). -/
def getKey : JSVal → String → JSVal
  | .obj _ fs, k => getField fs k
  | _, _ => .undefined

/-- Property write on a field list: updates the first binding in place,
appends a new binding otherwise (JavaScript property-creation order). -/
def setField : List (String × JSVal) → String → JSVal → List (String × JSVal)
  | [], k, v => [(k, v)]
  | (k', v') :: rest, k, v =>
    if k' = k then (k, v) :: rest else (k', v') :: setField rest k v

/-- Property write `v[k] = x`; a write to a non-object is dropped (the
embedding is only applied where JavaScript would not throw). -/
def setKey : JSVal → String → JSVal → JSVal
  | .obj a fs, k, v => .obj a (setField fs k v)
  | t, _, _ => t

end JSVal

/-! ## The `merge` utility (`objectUtils().merge`)

Functional embedding of the recursive object/array merge.  The source
mutates `target` in place and returns it; the embedding returns the
updated value.  The in-place recursive call `merge(targetValue,
sourceValue, ...)` of the source corresponds to storing the recursive
result at the key when `targetValue` is a (truthy) object — the mutation
happens on the object the key still points to — and to a *discarded*
result when it is not: in that case the source has just replaced the key
by a fresh `{}` and the recursive call merges into a different fresh
object that nobody retains. -/

mutual

/-- `merge(target, source, { deep, overwrite })` of
`objectUtils()` (the defaults of the source are `deep = true`,
`overwrite = true`). -/
def merge (deep overwrite : Bool) (target source : JSVal) : JSVal :=
  match source with
  | .obj sArr sFields =>
    -- target 非对象时初始化为与源对象同类型
    let t0 : JSVal :=
      match target with
      | .obj a fs => .obj a fs
      | _ => .obj sArr []
    if sArr then
      if !deep then (if overwrite then .obj sArr sFields else t0)
      else mergeIndices deep overwrite t0 0 sFields
    else mergeFields deep overwrite t0 sFields
  | _ =>
    -- 源对象非对象/数组，直接返回目标对象
    target

/-- The `sourceArr.forEach((item, index) => ...)` loop of the array
branch: `i` is the current index, the list the remaining items. -/
def mergeIndices (deep overwrite : Bool) (t : JSVal) (i : Nat) :
    List (String × JSVal) → JSVal
  | [] => t
  | (_, item) :: rest =>
    let key := toString i
    let t' :=
      if (JSVal.getKey t key).isUndefined then JSVal.setKey t key item
      else JSVal.setKey t key (merge deep overwrite (JSVal.getKey t key) item)
    mergeIndices deep overwrite t' (i + 1) rest

/-- The `Object.keys(sourceObj).forEach((key) => ...)` loop of the
plain-object branch. -/
def mergeFields (deep overwrite : Bool) (t : JSVal) :
    List (String × JSVal) → JSVal
  | [] => t
  | (k, sv) :: rest =>
    let tv := JSVal.getKey t k
    let t' :=
      if deep && sv.truthy && sv.isObjectType && !sv.isArrayVal then
        if !tv.truthy || !tv.isObjectType then
          -- targetObj[key] = {}; the result of the recursive
          -- merge(targetValue, sourceValue, ...) is discarded
          JSVal.setKey t k (.obj false [])
        else
          -- merge(targetValue, sourceValue, ...) mutates the object the
          -- key still points to
          JSVal.setKey t k (merge deep overwrite tv sv)
      else
        if overwrite || tv.isUndefined then JSVal.setKey t k sv else t
    mergeFields deep overwrite t' rest

end

/-- `merge(target, source)` called without options: the destructuring
defaults of the source give `deep = true`, `overwrite = true`. -/
def mergeDefault (target source : JSVal) : JSVal :=
  merge true true target source

/-! ## The graphic object registry (`mapStore.ts`)

`graphicMap` is a JavaScript `Map<string, any>`; the store exposes the
wrappers `setGraphicMap`, `getGraphicMap`, `hasGraphicMap` and
`removeGraphicMap`.  The claims are all pointwise, so the map is embedded
as a function from keys to optional values (`none` is `Map.get`'s
`undefined`).  The stored graphics are opaque handles, kept as a type
parameter. -/

namespace Store

/-- The `graphicMap : Map<string, G>` of the map store. -/
def GraphicMap (G : Type) : Type := String → Option G

/-- The map store starts with an empty `graphicMap`. -/
def emptyGraphicMap {G : Type} : GraphicMap G := fun _ => none

/-- `setGraphicMap(id, graphic)`: `graphicMap.set(id, graphic)`. -/
def setGraphicMap {G : Type} (m : GraphicMap G) (id : String) (g : G) :
    GraphicMap G :=
  fun k => if k = id then some g else m k

/-- `getGraphicMap(id)`: `graphicMap.get(id)`. -/
def getGraphicMap {G : Type} (m : GraphicMap G) (id : String) : Option G :=
  m id

/-- `hasGraphicMap(id)`: `graphicMap.has(id)`. -/
def hasGraphicMap {G : Type} (m : GraphicMap G) (id : String) : Bool :=
  (m id).isSome

/-- `removeGraphicMap(id)`: `graphicMap.delete(id)`. -/
def removeGraphicMap {G : Type} (m : GraphicMap G) (id : String) :
    GraphicMap G :=
  fun k => if k = id then none else m k

/-- A mutating registry operation (the read-only wrappers `getGraphicMap`
and `hasGraphicMap` do not change the store). -/
inductive RegOp (G : Type) : Type where
  | set : String → G → RegOp G
  | remove : String → RegOp G
deriving DecidableEq

/-- Apply one registry operation. -/
def applyRegOp {G : Type} (m : GraphicMap G) : RegOp G → GraphicMap G
  | .set id g => setGraphicMap m id g
  | .remove id => removeGraphicMap m id

/-- Run a sequence of registry operations, oldest first. -/
def runRegOps {G : Type} (m : GraphicMap G) : List (RegOp G) → GraphicMap G
  | [] => m
  | op :: rest => runRegOps (applyRegOp m op) rest

end Store

/-! ## Drone-trail point-list maintenance

Modelled from the spec: the module `setPath.ts` that maintains the drone
trail point list is referenced from `setPoint.ts` but is not part of the
provided sources.  Per the spec it performs a single linear scan with two
scalar thresholds: «append a point if it is farther than a fixed distance
from the last point, then drop points older than a configured retention
window (or retain forever if retention is negative)»; the retention window
is the store's `trailTime` (seconds). -/

namespace Trail

/-- A historical position sample of a moving object: a cartesian position
and the time (seconds) at which it was sampled. -/
structure TrailPoint where
  x : ℚ
  y : ℚ
  z : ℚ
  t : ℚ
deriving DecidableEq, Repr

/-- Squared cartesian distance between two samples. -/
def distSq (p q : TrailPoint) : ℚ :=
  (p.x - q.x) ^ 2 + (p.y - q.y) ^ 2 + (p.z - q.z) ^ 2

/-- Modelled from the spec: one maintenance step of the trail point list
(the missing `setPath.ts` logic).  `thr` is the fixed distance threshold,
`retention` the configured retention window (`trailTime`), `now` the
current time.  The new sample `p` is appended when it is farther than
`thr` from the last kept point (an empty list always receives the sample);
afterwards every point older than the retention window is dropped, unless
the retention value is negative, in which case every point is retained. -/
def updateTrail (thr retention now : ℚ) (pts : List Trail.TrailPoint)
    (p : Trail.TrailPoint) : List Trail.TrailPoint :=
  let appended :=
    match pts.getLast? with
    | none => pts ++ [p]
    | some q => if distSq q p > thr ^ 2 then pts ++ [p] else pts
  if retention < 0 then appended
  else appended.filter (fun q => now - q.t ≤ retention)

end Trail

/-! ## The point / geometry / grid creation layer

State-passing embedding of `setPoint.ts`, `geometry.ts` and `grid.ts`.
The engine objects these modules create (entities, primitives, DOM nodes)
are opaque handles; the embedding gives each a fresh numeric identity (the
JavaScript object identity) and records the construction arguments that
the repository's own code computes.  Constant styling options passed
verbatim to the engine (fonts, pixel offsets, colours of labels, shader
sources) are engine-opaque configuration and are not repeated in the
descriptions. -/

namespace App

/-- `Cesium.Cartesian3.fromDegrees(lng, lat, height)` — an opaque engine
conversion, kept symbolic with its arguments. -/
inductive Position : Type where
  | fromDegrees (lng lat height : ℚ) : Position
deriving DecidableEq, Repr

/-- Options of `conicalWave`; `positions` is the `[lng, lat, height]`
array. -/
structure ConeOptions where
  id : String
  positions : List ℚ
  heading : ℚ
  pitch : ℚ
  length : ℚ
  bottomRadius : ℚ
  thickness : ℚ
  color : String
deriving DecidableEq, Repr

/-- Options of `rectangularPyramidWave`. -/
structure PyramidOptions where
  id : String
  positions : List ℚ
  heading : ℚ
  pitch : ℚ
  height : ℚ
  horizontalAngle : ℚ
  verticalAngle : ℚ
  color : String
deriving DecidableEq, Repr

/-- What an entity added to `map.entities` was built from. -/
inductive EntityDesc : Type where
  /-- the billboard+label point of `setPointEntityByImg` -/
  | imgPoint (position : Position) (name : Option String)
  /-- the model entity of `setPointByGlb` -/
  | glbModel (url : String) (position : Position) (heading : ℚ)
  /-- the drone model entity of `setDronePointByGlb` (`modelUrl` is
  `baseUrl + '/glb/drone.glb'`) -/
  | droneEntity (id : String) (position : Position) (modelUrl : String)
  /-- one polyline of `createGridEffect`: a horizontal line at latitude
  `coord` from `lo` to `hi`, or a vertical one at longitude `coord` -/
  | gridLine (horizontal : Bool) (coord lo hi height : ℚ)
deriving DecidableEq, Repr

/-- An entity of `map.entities`: object identity plus construction
description. -/
structure Entity where
  eid : Nat
  desc : EntityDesc
deriving DecidableEq, Repr

/-- A primitive of `map.scene.primitives`.  The cone and pyramid
primitives carry their cached `_originalOptions`; `poseOverride` records a
pose-update that overwrote `modelMatrix` without rebuilding the
primitive. -/
inductive ScenePrim : Type where
  | cone (pid : Nat) (opts : ConeOptions) (poseOverride : Option (ℚ × ℚ))
  | pyramid (pid : Nat) (opts : PyramidOptions) (poseOverride : Option (ℚ × ℚ))
  | billboardCollection (pid : Nat)
  | labelCollection (pid : Nat)
deriving DecidableEq, Repr

/-- A value stored in the graphic registry.  The registry and the scene
alias the same JavaScript objects, so primitive entries mirror the fields
of the corresponding `ScenePrim`. -/
inductive Graphic : Type where
  /-- a plain entity handle (`setPointEntityByImg`, `setPointByGlb`) -/
  | entity (e : Entity)
  /-- the `modelEntity` wrapper of `setDronePointByGlb` -/
  | dronePoint (e : Entity) (trailEntityId : String)
  /-- the result object of `setPointPrimitiveByImg` -/
  | divPoint (divId : String) (position : Position)
  /-- the cone primitive of `conicalWave` -/
  | conePrimitive (pid : Nat) (opts : ConeOptions) (poseOverride : Option (ℚ × ℚ))
  /-- the pyramid primitive of `rectangularPyramidWave` -/
  | pyramidPrimitive (pid : Nat) (opts : PyramidOptions) (poseOverride : Option (ℚ × ℚ))
  /-- one `{ billboard, label }` pair of `setBatchPointsByImg` -/
  | batchPoint (billboardId labelId idx : Nat) (position : Position)
deriving DecidableEq, Repr

/-- The combined state the three modules act on: the map store (`mapInst`
is `mapStore.map`, `registry` the graphic registry, `droneTrails` the
drone-trail store), the scene (`entities`, `scenePrims`), the DOM nodes
appended to the map container, the module-local `gridEntities` list of
`gridConfig()`, the console log, and the source of fresh object
identities. -/
structure AppState where
  mapInst : Option Unit
  registry : Store.GraphicMap Graphic
  droneTrails : String → Option (List Position)
  entities : List Entity
  scenePrims : List ScenePrim
  domNodes : List String
  gridEntities : List Entity
  log : List String
  nextId : Nat

/-- Append one console message. -/
def addLog (s : AppState) (m : String) : AppState :=
  { s with log := s.log ++ [m] }

/-- `'地图实例不存在'` — the message of every null-map early return. -/
def mapMissingMsg : String := "地图实例不存在"

/-- Warned when a point id is already registered. -/
def pointExistsMsg (id : String) : String := "点位已存在，ID: " ++ id

/-- Logged when a wave effect id is already registered. -/
def effectExistsMsg (id : String) : String := "id: " ++ id ++ " 效果已存在"

/-- Logged when a cone to update is not registered. -/
def coneMissingMsg (id : String) : String := "id: " ++ id ++ " 圆锥体不存在"

/-- Logged when a pyramid to update is not registered. -/
def pyramidMissingMsg (id : String) : String := "id: " ++ id ++ " 四棱锥体不存在"

/-- Logged when neither a new length nor a new position is supplied. -/
def updateConeArgsMsg : String := "更新圆锥体高度 / 位置：必须提供高度或位置"

/-- Logged when neither a new height nor a new position is supplied. -/
def updatePyramidArgsMsg : String := "更新四棱锥体高度 / 位置：必须提供高度或位置"

/-- Logged by the catch branch of the cone update functions (numeric
interpolations of the success logs are omitted throughout). -/
def updateFailedMsg : String := "更新失败"

/-- Logged after a successful cone/pyramid update. -/
def updatedMsg (id : String) : String := "id: " ++ id ++ " 已更新"

/-- Options of `setPointEntityByImg` / `setPointPrimitiveByImg`. -/
structure ImgPointOptions where
  id : String
  lng : ℚ
  lat : ℚ
  name : Option String
deriving DecidableEq, Repr

/-- `setPointEntityByImg(options)`. -/
def setPointEntityByImg (o : ImgPointOptions) (s : AppState) :
    AppState × Option Graphic :=
  match s.mapInst with
  | none => (addLog s mapMissingMsg, none)
  | some _ =>
    if Store.hasGraphicMap s.registry o.id then
      (addLog s (pointExistsMsg o.id), Store.getGraphicMap s.registry o.id)
    else
      let e : Entity := ⟨s.nextId, .imgPoint (.fromDegrees o.lng o.lat 0) o.name⟩
      ({ s with entities := s.entities ++ [e],
                registry := Store.setGraphicMap s.registry o.id (.entity e),
                nextId := s.nextId + 1 },
       some (.entity e))

/-- `setPointPrimitiveByImg(options)`.  Only the existence of the DOM
node is modelled (its style mutations and the post-render listener are
browser-side effects). -/
def setPointPrimitiveByImg (o : ImgPointOptions) (s : AppState) :
    AppState × Option Graphic :=
  match s.mapInst with
  | none => (addLog s mapMissingMsg, none)
  | some _ =>
    if Store.hasGraphicMap s.registry o.id then
      (addLog s (pointExistsMsg o.id), Store.getGraphicMap s.registry o.id)
    else
      let divId := o.id ++ "_div"
      let g : Graphic := .divPoint divId (.fromDegrees o.lng o.lat 0)
      ({ s with domNodes := s.domNodes ++ [divId],
                registry := Store.setGraphicMap s.registry o.id g },
       some g)

/-- Options of `setBatchPointsByImg`. -/
structure BatchOptions where
  lng : ℚ
  lat : ℚ
  name : Option String
deriving DecidableEq, Repr

/-- `setBatchPointsByImg(options)`.  `rng` supplies the successive
`Math.random()` draws.  Returns the identities of the billboard and label
collections.  (The contents of the two collections are engine-side; the
registry writes, the scene insertions and the duplicate-id warnings are
modelled.) -/
def setBatchPointsByImg (rng : Nat → ℚ) (o : BatchOptions) (s : AppState) :
    AppState × Option (Nat × Nat) :=
  match s.mapInst with
  | none => (addLog s mapMissingMsg, none)
  | some _ =>
    let bcId := s.nextId
    let lcId := s.nextId + 1
    let s1 := (List.range 10000).foldl
      (fun st i =>
        if Store.hasGraphicMap st.registry (toString i) then
          addLog st (pointExistsMsg (toString i))
        else
          let pos : Position :=
            .fromDegrees (o.lng + rng (2 * i)) (o.lat + rng (2 * i + 1)) 0
          let g : Graphic := .batchPoint bcId lcId i pos
          { st with
              registry := Store.setGraphicMap st.registry (toString i) g })
      { s with nextId := s.nextId + 2 }
    ({ s1 with scenePrims := s1.scenePrims
        ++ [.billboardCollection bcId, .labelCollection lcId] },
     some (bcId, lcId))

/-- Options of `setPointByGlb`. -/
structure GlbOptions where
  id : String
  url : String
  lng : ℚ
  lat : ℚ
  height : Option ℚ
  heading : Option ℚ
deriving DecidableEq, Repr

/-- `setPointByGlb(options)`.  An absent height reaches the engine as
`undefined` and defaults to `0` in `fromDegrees`; `options.heading || 0`
defaults the heading. -/
def setPointByGlb (o : GlbOptions) (s : AppState) : AppState × Option Graphic :=
  match s.mapInst with
  | none => (addLog s mapMissingMsg, none)
  | some _ =>
    if Store.hasGraphicMap s.registry o.id then
      (addLog s (pointExistsMsg o.id), Store.getGraphicMap s.registry o.id)
    else
      let e : Entity := ⟨s.nextId,
        .glbModel o.url (.fromDegrees o.lng o.lat (o.height.getD 0))
          (o.heading.getD 0)⟩
      ({ s with entities := s.entities ++ [e],
                registry := Store.setGraphicMap s.registry o.id (.entity e),
                nextId := s.nextId + 1 },
       some (.entity e))

/-- Options of `setDronePointByGlb`. -/
structure DroneOptions where
  id : String
  lng : ℚ
  lat : ℚ
  height : Option ℚ
  heading : Option ℚ
deriving DecidableEq, Repr

/-- Modelled from the spec: the `setDroneTrail` of the missing
`setPath.ts`, called by `setDronePointByGlb` with the drone's initial
position, creates the drone's independent trail with that first sample. -/
def specSetDroneTrail (trails : String → Option (List Position))
    (id : String) (p : Position) : String → Option (List Position) :=
  fun k => if k = id then some [p] else trails k

/-- `setDronePointByGlb(options)` (from `setPoint(baseUrl)`). -/
def setDronePointByGlb (baseUrl : String) (o : DroneOptions) (s : AppState) :
    AppState × Option Graphic :=
  match s.mapInst with
  | none => (addLog s mapMissingMsg, none)
  | some _ =>
    if Store.hasGraphicMap s.registry o.id then
      (addLog s (pointExistsMsg o.id), Store.getGraphicMap s.registry o.id)
    else
      let pos : Position := .fromDegrees o.lng o.lat (o.height.getD 0)
      let e : Entity := ⟨s.nextId, .droneEntity o.id pos (baseUrl ++ "/glb/drone.glb")⟩
      let g : Graphic := .dronePoint e (o.id ++ "_trail")
      ({ s with entities := s.entities ++ [e],
                droneTrails := specSetDroneTrail s.droneTrails o.id pos,
                registry := Store.setGraphicMap s.registry o.id g,
                nextId := s.nextId + 1 },
       some g)

/-- `conicalWave(options)`. -/
def conicalWave (o : ConeOptions) (s : AppState) : AppState × Option Graphic :=
  match s.mapInst with
  | none => (addLog s mapMissingMsg, none)
  | some _ =>
    match Store.getGraphicMap s.registry o.id with
    | some _ => (addLog s (effectExistsMsg o.id), none)
    | none =>
      let g : Graphic := .conePrimitive s.nextId o none
      ({ s with registry := Store.setGraphicMap s.registry o.id g,
                scenePrims := s.scenePrims ++ [.cone s.nextId o none],
                nextId := s.nextId + 1 },
       some g)

/-- Options of `updateConeLengthOrPosition`. -/
structure ConeUpdateOptions where
  id : String
  length : Option ℚ
  positions : Option (ℚ × ℚ × ℚ)
deriving DecidableEq, Repr

/-- `updateConeLengthOrPosition(options)`.  A registry entry that is not
a cone primitive lacks the cone's `_originalOptions` fields and the
rebuild inside the `try` block fails (a throw caught by the `catch`); the
embedding maps those calls to the failure result. -/
def updateConeLengthOrPosition (o : ConeUpdateOptions) (s : AppState) :
    AppState × Bool :=
  match s.mapInst with
  | none => (addLog s mapMissingMsg, false)
  | some _ =>
    if o.length.isNone && o.positions.isNone then
      (addLog s updateConeArgsMsg, false)
    else
      match Store.getGraphicMap s.registry o.id with
      | none => (addLog s (coneMissingMsg o.id), false)
      | some (.conePrimitive pid opts po) =>
        let opts' : ConeOptions :=
          { opts with
            length := o.length.getD opts.length,
            positions := match o.positions with
              | some (a, b, c) => [a, b, c]
              | none => opts.positions }
        let newPid := s.nextId
        ({ s with
            scenePrims := (s.scenePrims.erase (.cone pid opts po))
              ++ [.cone newPid opts' none],
            registry := Store.setGraphicMap s.registry o.id
              (.conePrimitive newPid opts' none),
            nextId := s.nextId + 1,
            log := s.log ++ [updatedMsg o.id] },
         true)
      | some _ => (addLog s updateFailedMsg, false)

/-- Options of the two pose-update functions. -/
structure PoseUpdateOptions where
  id : String
  heading : ℚ
  pitch : ℚ
deriving DecidableEq, Repr

/-- Logged after `updateConeLengthOrPosition` succeeds (the numeric
interpolation of the source message is omitted). -/
def coneUpdatedMsg (id : String) : String := "id: " ++ id ++ " 圆锥体已更新"

/-- Logged after `updateConePose` succeeds. -/
def conePoseUpdatedMsg (id : String) : String :=
  "id: " ++ id ++ " 圆锥体姿态已更新"

/-- Logged after `updateRectangularPyramidWavePose` succeeds. -/
def pyramidPoseUpdatedMsg (id : String) : String :=
  "id: " ++ id ++ " 四棱锥姿态已更新"

/-- Logged after `updateRectangularPyramidLengthOrPosition` succeeds (the
numeric interpolation of the source message is omitted). -/
def pyramidUpdatedMsg (id : String) : String :=
  "id: " ++ id ++ " 四棱锥体已更新"

/-- `updateConePose(options)`.  The new model matrix is a function of the
stored `_originalOptions` and the new pose, written onto the shared
primitive object, and the new pose is cached back into
`_originalOptions`; scene and registry alias the same object, so both
mirrors are updated.  A registry entry of another kind lacks the cone's
option fields; the embedding maps such calls to the failure result (in
the source they either throw inside the `try`, or write a
NaN-contaminated matrix — floating-point behaviour outside this
embedding). -/
def updateConePose (o : PoseUpdateOptions) (s : AppState) : AppState × Bool :=
  match s.mapInst with
  | none => (addLog s mapMissingMsg, false)
  | some _ =>
    match Store.getGraphicMap s.registry o.id with
    | none => (addLog s (coneMissingMsg o.id), false)
    | some (.conePrimitive pid opts po) =>
      let opts' : ConeOptions := { opts with heading := o.heading, pitch := o.pitch }
      ({ s with
          scenePrims := s.scenePrims.replace (.cone pid opts po)
            (.cone pid opts' none),
          registry := Store.setGraphicMap s.registry o.id
            (.conePrimitive pid opts' none),
          log := s.log ++ [conePoseUpdatedMsg o.id] },
       true)
    | some _ => (addLog s updateFailedMsg, false)

/-- `rectangularPyramidWave(options)`. -/
def rectangularPyramidWave (o : PyramidOptions) (s : AppState) :
    AppState × Option Graphic :=
  match s.mapInst with
  | none => (addLog s mapMissingMsg, none)
  | some _ =>
    match Store.getGraphicMap s.registry o.id with
    | some _ => (addLog s (effectExistsMsg o.id), none)
    | none =>
      let g : Graphic := .pyramidPrimitive s.nextId o none
      ({ s with registry := Store.setGraphicMap s.registry o.id g,
                scenePrims := s.scenePrims ++ [.pyramid s.nextId o none],
                nextId := s.nextId + 1 },
       some g)

/-- `updateRectangularPyramidWavePose(options)`.  Unlike `updateConePose`
it overwrites `modelMatrix` without re-caching the pose into
`_originalOptions`: the override is recorded separately.  Scene and
registry alias the same object.  Registry entries of another kind are
mapped to the failure result (see `updateConePose`). -/
def updateRectangularPyramidWavePose (o : PoseUpdateOptions) (s : AppState) :
    AppState × Bool :=
  match s.mapInst with
  | none => (addLog s mapMissingMsg, false)
  | some _ =>
    match Store.getGraphicMap s.registry o.id with
    | none => (addLog s (pyramidMissingMsg o.id), false)
    | some (.pyramidPrimitive pid opts po) =>
      ({ s with
          scenePrims := s.scenePrims.replace (.pyramid pid opts po)
            (.pyramid pid opts (some (o.heading, o.pitch))),
          registry := Store.setGraphicMap s.registry o.id
            (.pyramidPrimitive pid opts (some (o.heading, o.pitch))),
          log := s.log ++ [pyramidPoseUpdatedMsg o.id] },
       true)
    | some _ => (addLog s updateFailedMsg, false)

/-- Options of `updateRectangularPyramidLengthOrPosition`. -/
structure PyramidUpdateOptions where
  id : String
  height : Option ℚ
  positions : Option (ℚ × ℚ × ℚ)
deriving DecidableEq, Repr

/-- `updateRectangularPyramidLengthOrPosition(options)`.  Registry
entries of another kind are mapped to the failure result (see
`updateConeLengthOrPosition`). -/
def updateRectangularPyramidLengthOrPosition (o : PyramidUpdateOptions)
    (s : AppState) : AppState × Bool :=
  match s.mapInst with
  | none => (addLog s mapMissingMsg, false)
  | some _ =>
    if o.height.isNone && o.positions.isNone then
      (addLog s updatePyramidArgsMsg, false)
    else
      match Store.getGraphicMap s.registry o.id with
      | none => (addLog s (pyramidMissingMsg o.id), false)
      | some (.pyramidPrimitive pid opts po) =>
        let opts' : PyramidOptions :=
          { opts with
            height := o.height.getD opts.height,
            positions := match o.positions with
              | some (a, b, c) => [a, b, c]
              | none => opts.positions }
        let newPid := s.nextId
        ({ s with
            scenePrims := (s.scenePrims.erase (.pyramid pid opts po))
              ++ [.pyramid newPid opts' none],
            registry := Store.setGraphicMap s.registry o.id
              (.pyramidPrimitive newPid opts' none),
            nextId := s.nextId + 1,
            log := s.log ++ [pyramidUpdatedMsg o.id] },
         true)
      | some _ => (addLog s updateFailedMsg, false)

/-- Options of `createGridEffect`. -/
structure GridOptions where
  west : ℚ
  south : ℚ
  east : ℚ
  north : ℚ
  step : ℚ
  height : ℚ
deriving DecidableEq, Repr

/-- Number of iterations of `for (let v = a; v <= b; v += step)` for a
positive step (the source loop, run on exact arithmetic; it does not
terminate for a non-positive step and a non-empty range, so the theorems
assume `0 < step`). -/
def gridLineCount (a b step : ℚ) : Nat :=
  if 0 < step ∧ a ≤ b then (((b - a) / step).floor).toNat + 1 else 0

/-- `createGridEffect(options)`: one polyline entity per latitude line
(south to north), then one per longitude line (west to east); each is
added to `map.entities` and pushed onto the module-local
`gridEntities`. -/
def createGridEffect (o : GridOptions) (s : AppState) : AppState × Unit :=
  match s.mapInst with
  | none => (addLog s mapMissingMsg, ())
  | some _ =>
    let nLat := gridLineCount o.south o.north o.step
    let nLon := gridLineCount o.west o.east o.step
    let latEnts : List Entity := (List.range nLat).map fun i =>
      ⟨s.nextId + i, .gridLine true (o.south + i * o.step) o.west o.east o.height⟩
    let lonEnts : List Entity := (List.range nLon).map fun i =>
      ⟨s.nextId + nLat + i,
        .gridLine false (o.west + i * o.step) o.south o.north o.height⟩
    let newEnts := latEnts ++ lonEnts
    ({ s with entities := s.entities ++ newEnts,
              gridEntities := s.gridEntities ++ newEnts,
              nextId := s.nextId + nLat + nLon },
     ())

/-- `clearAirGrid()`: removes each entity of `gridEntities` from
`map.entities`, then empties `gridEntities`. -/
def clearAirGrid (s : AppState) : AppState × Unit :=
  match s.mapInst with
  | none => (addLog s mapMissingMsg, ())
  | some _ =>
    ({ s with entities := s.gridEntities.foldl (fun es e => es.erase e) s.entities,
              gridEntities := [] },
     ())

end App

/-! ## The voxel grid (`gridTypes.ts`, class `VoxelGrid`)

The engine's transform API is embedded exactly where the repository
composes matrices itself (`Matrix4.multiplyByTranslation` on rationals),
and symbolically where it only forwards arguments
(`Cartesian3.fromDegrees`, `Transforms.eastNorthUpToFixedFrame` are
supplied as an uninterpreted `Engine`).  Primitives receive fresh numeric
identities (JavaScript object identity). -/

namespace Voxel

/-- A cartesian triple (`new Cesium.Cartesian3(x, y, z)`). -/
structure Cart3 where
  x : ℚ
  y : ℚ
  z : ℚ
deriving DecidableEq, Repr

/-- A 4×4 matrix over ℚ; `mIJ` is the entry of row `I`, column `J`
(Cesium stores it column-major: its `matrix[4*J + I]` is `mIJ`). -/
structure Matrix4 where
  m00 : ℚ
  m01 : ℚ
  m02 : ℚ
  m03 : ℚ
  m10 : ℚ
  m11 : ℚ
  m12 : ℚ
  m13 : ℚ
  m20 : ℚ
  m21 : ℚ
  m22 : ℚ
  m23 : ℚ
  m30 : ℚ
  m31 : ℚ
  m32 : ℚ
  m33 : ℚ
deriving DecidableEq, Repr

/-- Full matrix product (`Cesium.Matrix4.multiply`). -/
def matMul (a b : Matrix4) : Matrix4 where
  m00 := a.m00 * b.m00 + a.m01 * b.m10 + a.m02 * b.m20 + a.m03 * b.m30
  m01 := a.m00 * b.m01 + a.m01 * b.m11 + a.m02 * b.m21 + a.m03 * b.m31
  m02 := a.m00 * b.m02 + a.m01 * b.m12 + a.m02 * b.m22 + a.m03 * b.m32
  m03 := a.m00 * b.m03 + a.m01 * b.m13 + a.m02 * b.m23 + a.m03 * b.m33
  m10 := a.m10 * b.m00 + a.m11 * b.m10 + a.m12 * b.m20 + a.m13 * b.m30
  m11 := a.m10 * b.m01 + a.m11 * b.m11 + a.m12 * b.m21 + a.m13 * b.m31
  m12 := a.m10 * b.m02 + a.m11 * b.m12 + a.m12 * b.m22 + a.m13 * b.m32
  m13 := a.m10 * b.m03 + a.m11 * b.m13 + a.m12 * b.m23 + a.m13 * b.m33
  m20 := a.m20 * b.m00 + a.m21 * b.m10 + a.m22 * b.m20 + a.m23 * b.m30
  m21 := a.m20 * b.m01 + a.m21 * b.m11 + a.m22 * b.m21 + a.m23 * b.m31
  m22 := a.m20 * b.m02 + a.m21 * b.m12 + a.m22 * b.m22 + a.m23 * b.m32
  m23 := a.m20 * b.m03 + a.m21 * b.m13 + a.m22 * b.m23 + a.m23 * b.m33
  m30 := a.m30 * b.m00 + a.m31 * b.m10 + a.m32 * b.m20 + a.m33 * b.m30
  m31 := a.m30 * b.m01 + a.m31 * b.m11 + a.m32 * b.m21 + a.m33 * b.m31
  m32 := a.m30 * b.m02 + a.m31 * b.m12 + a.m32 * b.m22 + a.m33 * b.m32
  m33 := a.m30 * b.m03 + a.m31 * b.m13 + a.m32 * b.m23 + a.m33 * b.m33

/-- `Cesium.Matrix4.fromTranslation(t)`: the identity with `t` as the
fourth column. -/
def fromTranslation (t : Cart3) : Matrix4 where
  m00 := 1
  m01 := 0
  m02 := 0
  m03 := t.x
  m10 := 0
  m11 := 1
  m12 := 0
  m13 := t.y
  m20 := 0
  m21 := 0
  m22 := 1
  m23 := t.z
  m30 := 0
  m31 := 0
  m32 := 0
  m33 := 1

/-- `Cesium.Matrix4.multiplyByTranslation(m, t, result)`: Cesium's
optimised product with a translation matrix — only the fourth column's
first three entries are recomputed, the rest of the matrix is copied. -/
def multiplyByTranslation (m : Matrix4) (t : Cart3) : Matrix4 :=
  { m with
    m03 := m.m00 * t.x + m.m01 * t.y + m.m02 * t.z + m.m03,
    m13 := m.m10 * t.x + m.m11 * t.y + m.m12 * t.z + m.m13,
    m23 := m.m20 * t.x + m.m21 * t.y + m.m22 * t.z + m.m23 }

/-- `Cesium.Color` (a value forwarded into the per-instance colour
attribute). -/
structure Color where
  red : ℚ
  green : ℚ
  blue : ℚ
  alpha : ℚ
deriving DecidableEq, Repr

/-- `VoxelGridOptions` of `gridTypes.ts` (the optional `color` is always
supplied by the caller and kept required here). -/
structure VoxelGridOptions where
  lon : ℚ
  lat : ℚ
  baseHeight : ℚ
  voxelSize : ℚ
  countX : ℕ
  countY : ℕ
  countZ : ℕ
  color : Color
deriving DecidableEq, Repr

/-- The engine calls `VoxelGrid.create` forwards arguments to:
coordinate conversion and the east-north-up frame transform.  Their
numeric content (trigonometry of the ellipsoid) is the engine's, so both
are uninterpreted parameters of the embedding. -/
structure Engine where
  fromDegrees : ℚ → ℚ → ℚ → Cart3
  eastNorthUpToFixedFrame : Cart3 → Matrix4

/-- `BoxOutlineGeometry.fromDimensions` — the single box geometry shared
by all instances. -/
structure BoxGeometry where
  dimX : ℚ
  dimY : ℚ
  dimZ : ℚ
deriving DecidableEq, Repr

/-- A `Cesium.GeometryInstance` of the voxel grid. -/
structure VoxelInstance where
  geometry : BoxGeometry
  modelMatrix : Matrix4
  colorAttr : Color
deriving DecidableEq, Repr

/-- The instance pushed for grid index `(x, y, z)`. -/
def mkVoxelInstance (enuT : Matrix4) (o : VoxelGridOptions) (x y z : ℕ) :
    VoxelInstance where
  geometry := ⟨o.voxelSize, o.voxelSize, o.voxelSize⟩
  modelMatrix := multiplyByTranslation enuT
    ⟨x * o.voxelSize, y * o.voxelSize, z * o.voxelSize⟩
  colorAttr := o.color

/-- The instance list built by the triple loop of `VoxelGrid.create`
(`x` outermost, `z` innermost). -/
def voxelInstances (engine : Engine) (o : VoxelGridOptions) :
    List VoxelInstance :=
  let origin := engine.fromDegrees o.lon o.lat o.baseHeight
  let enuT := engine.eastNorthUpToFixedFrame origin
  (List.range o.countX).flatMap fun x =>
    (List.range o.countY).flatMap fun y =>
      (List.range o.countZ).map fun z => mkVoxelInstance enuT o x y z

/-- A `Cesium.Primitive` built by `VoxelGrid.create`: object identity
plus its geometry instances. -/
structure Primitive where
  pid : Nat
  geometryInstances : List VoxelInstance
deriving DecidableEq, Repr

/-- The state of one `VoxelGrid` object together with the scene it adds
to: `primitive` is the instance field `this.primitive`,
`scenePrimitives` the viewer's `scene.primitives`, and `nextId` the
source of fresh object identities. -/
structure VoxelGridState where
  nextId : Nat
  scenePrimitives : List Primitive
  primitive : Option Primitive
deriving DecidableEq, Repr

/-- `VoxelGrid.clear()`: removes the held primitive from the scene and
nulls the reference; a no-op when no primitive is held. -/
def clear (s : VoxelGridState) : VoxelGridState :=
  match s.primitive with
  | some p =>
    { s with scenePrimitives := s.scenePrimitives.erase p, primitive := none }
  | none => s

/-- `VoxelGrid.create(options)`: clears first, then builds the instance
list, wraps it in a fresh primitive and adds it to the scene. -/
def create (engine : Engine) (o : VoxelGridOptions) (s : VoxelGridState) :
    VoxelGridState :=
  let s1 := clear s
  let p : Primitive := ⟨s1.nextId, voxelInstances engine o⟩
  { nextId := s1.nextId + 1,
    scenePrimitives := s1.scenePrimitives ++ [p],
    primitive := some p }

/-- A call on the `VoxelGrid` object. -/
inductive VoxelOp : Type where
  | create (engine : Engine) (o : VoxelGridOptions)
  | clear

/-- Run a sequence of calls, oldest first. -/
def runVoxelOps (s : VoxelGridState) : List VoxelOp → VoxelGridState
  | [] => s
  | .create engine o :: rest => runVoxelOps (create engine o s) rest
  | .clear :: rest => runVoxelOps (clear s) rest

/-- The primitives of the scene owned by this instance: those whose
identity was created after the instance started (`n0` is the identity
counter at start). -/
def ownedPrimitives (n0 : Nat) (s : VoxelGridState) : List Primitive :=
  s.scenePrimitives.filter fun p => n0 ≤ p.pid

end Voxel

/-! ## Concrete fixtures used by counterexamples and witnesses -/

/-- A registered graphic used by the concrete registry states. -/
def sampleGraphic : App.Graphic := .entity ⟨0, .imgPoint (.fromDegrees 0 0 0) none⟩

/-- A registry holding `sampleGraphic` under the identifier `"a"`. -/
def sampleRegistry : Store.GraphicMap App.Graphic :=
  fun k => if k = "a" then some sampleGraphic else none

/-- An application state whose map instance is null and whose registry
holds `sampleGraphic` under `"a"`. -/
def stateNoMap : App.AppState :=
  { mapInst := none, registry := sampleRegistry, droneTrails := fun _ => none,
    entities := [], scenePrims := [], domNodes := [], gridEntities := [],
    log := [], nextId := 1 }

/-- The same application state with an existing map instance. -/
def stateWithMap : App.AppState :=
  { stateNoMap with mapInst := some () }

/-- A concrete engine for the voxel witnesses: every east-north-up frame
is the identity matrix (affine, as the engine's frames always are). -/
def sampleEngine : Voxel.Engine :=
  { fromDegrees := fun _ _ _ => ⟨0, 0, 0⟩,
    eastNorthUpToFixedFrame := fun _ => Voxel.fromTranslation ⟨0, 0, 0⟩ }

/-- Concrete voxel-grid options for the witnesses. -/
def sampleVoxelOptions : Voxel.VoxelGridOptions :=
  { lon := 116, lat := 31, baseHeight := 0, voxelSize := 1000,
    countX := 2, countY := 2, countZ := 2, color := ⟨0, 1, 1, 1/50⟩ }

/-- A fresh voxel-grid state (empty scene, no held primitive). -/
def freshVoxelState : Voxel.VoxelGridState :=
  { nextId := 0, scenePrimitives := [], primitive := none }

section Theorems

/-! ## Theorems

The registry laws first, then the persistence of registry entries, the
merge utility, the trail maintenance, the creation-layer claims and the
voxel grid. -/

/-- C5: immediately after `setGraphicMap(id, g)`, `getGraphicMap id`
returns `g` and `hasGraphicMap id` is true; immediately after
`removeGraphicMap(id)`, `hasGraphicMap id` is false and
`getGraphicMap id` is undefined; entries of every other identifier are
unaffected by both operations. -/
theorem graphicMap_pointwise_laws {G : Type} (m : Store.GraphicMap G)
    (id : String) (g : G) :
    Store.getGraphicMap (Store.setGraphicMap m id g) id = some g ∧
    Store.hasGraphicMap (Store.setGraphicMap m id g) id = true ∧
    Store.hasGraphicMap (Store.removeGraphicMap m id) id = false ∧
    Store.getGraphicMap (Store.removeGraphicMap m id) id = none ∧
    (∀ id2 : String, id2 ≠ id →
      Store.getGraphicMap (Store.setGraphicMap m id g) id2
          = Store.getGraphicMap m id2 ∧
      Store.hasGraphicMap (Store.setGraphicMap m id g) id2
          = Store.hasGraphicMap m id2 ∧
      Store.getGraphicMap (Store.removeGraphicMap m id) id2
          = Store.getGraphicMap m id2 ∧
      Store.hasGraphicMap (Store.removeGraphicMap m id) id2
          = Store.hasGraphicMap m id2) := by
  refine ⟨?_, ?_, ?_, ?_, ?_⟩ <;>
    simp [Store.getGraphicMap, Store.setGraphicMap, Store.hasGraphicMap,
      Store.removeGraphicMap]
  intro id2 h
  simp [h]

/-- Witness for C5 at a concrete store and identifiers. -/
theorem graphicMap_pointwise_laws_witness :
    ("b" : String) ≠ "a" ∧
    Store.getGraphicMap
      (Store.setGraphicMap (Store.emptyGraphicMap (G := Nat)) "a" 5) "b"
      = Store.getGraphicMap (Store.emptyGraphicMap (G := Nat)) "b" :=
  ⟨by decide,
   ((graphicMap_pointwise_laws (Store.emptyGraphicMap (G := Nat)) "a" 5).2.2.2.2
     "b" (by decide)).1⟩

/-- Presence of an identifier survives any mutating operation that is
not a removal of that identifier. -/
theorem hasGraphicMap_applyRegOp {G : Type} (m : Store.GraphicMap G)
    (op : Store.RegOp G) (id : String) (hop : op ≠ .remove id)
    (h : Store.hasGraphicMap m id = true) :
    Store.hasGraphicMap (Store.applyRegOp m op) id = true := by
  cases op with
  | set id2 g =>
    by_cases hc : id = id2
    · simp [Store.applyRegOp, Store.setGraphicMap, Store.hasGraphicMap, hc]
    · simpa [Store.applyRegOp, Store.setGraphicMap, Store.hasGraphicMap,
        hc] using h
  | remove id2 =>
    have hne : id ≠ id2 := by
      rintro rfl
      exact hop rfl
    simpa [Store.applyRegOp, Store.removeGraphicMap, Store.hasGraphicMap,
      hne] using h

/-- Presence survives a whole operation sequence free of removals of the
identifier. -/
theorem hasGraphicMap_runRegOps {G : Type} (ops : List (Store.RegOp G)) :
    ∀ m : Store.GraphicMap G, ∀ id : String,
      (∀ op ∈ ops, op ≠ .remove id) →
      Store.hasGraphicMap m id = true →
      Store.hasGraphicMap (Store.runRegOps m ops) id = true := by
  induction ops with
  | nil => intro m id _ h; exact h
  | cons op rest ih =>
    intro m id hops h
    exact ih (Store.applyRegOp m op) id
      (fun o ho => hops o (List.mem_cons_of_mem op ho))
      (hasGraphicMap_applyRegOp m op id (hops op (List.mem_cons_self op rest)) h)

/-- Counterexample to C3 as stated: the store also exposes
`removeGraphicMap`, and a removal evicts the entry — an inserted
identifier does not remain present for the lifetime of the store. -/
theorem registry_unevicted_counterexample :
    Store.hasGraphicMap
      (Store.runRegOps (Store.emptyGraphicMap (G := Nat))
        [Store.RegOp.set "a" 0, Store.RegOp.remove "a"]) "a" = false := by
  decide

/-- C3 (amended): the registry exposes four wrapper functions (set, get,
has, remove); an identifier inserted via `setGraphicMap` remains present
under every subsequent operation except a `removeGraphicMap` of that same
identifier. -/
theorem registry_persistence_amended {G : Type} (m : Store.GraphicMap G)
    (l r : List (Store.RegOp G)) (id : String) (g : G)
    (hr : ∀ op ∈ r, op ≠ .remove id) :
    Store.hasGraphicMap
      (Store.runRegOps m (l ++ Store.RegOp.set id g :: r)) id = true := by
  have happ : ∀ (l2 : List (Store.RegOp G)) (m2 : Store.GraphicMap G),
      Store.runRegOps m2 (l ++ l2) = Store.runRegOps (Store.runRegOps m2 l) l2 := by
    clear hr
    induction l with
    | nil => intro l2 m2; rfl
    | cons op rest ih => intro l2 m2; exact ih l2 (Store.applyRegOp m2 op)
  rw [happ]
  have hset : Store.hasGraphicMap
      (Store.applyRegOp (Store.runRegOps m l) (Store.RegOp.set id g)) id = true := by
    simp [Store.applyRegOp, Store.setGraphicMap, Store.hasGraphicMap]
  exact hasGraphicMap_runRegOps r _ id hr hset

/-- Witness for the amended C3 at a concrete operation sequence. -/
theorem registry_persistence_amended_witness :
    (∀ op ∈ [Store.RegOp.remove (G := Nat) "b"], op ≠ .remove "a") ∧
    Store.hasGraphicMap
      (Store.runRegOps (Store.emptyGraphicMap (G := Nat))
        ([Store.RegOp.set "c" 7] ++ Store.RegOp.set "a" 1
          :: [Store.RegOp.remove "b"])) "a" = true :=
  ⟨by decide,
   registry_persistence_amended Store.emptyGraphicMap [Store.RegOp.set "c" 7]
     [Store.RegOp.remove "b"] "a" 1 (by decide)⟩

/-- Reading back the key just written. -/
theorem getField_setField_self (fs : List (String × JSVal)) (k : String)
    (v : JSVal) : JSVal.getField (JSVal.setField fs k v) k = v := by
  induction fs with
  | nil => simp [JSVal.setField, JSVal.getField]
  | cons p rest ih =>
    obtain ⟨k1, v1⟩ := p
    by_cases h : k1 = k <;> simp [JSVal.setField, JSVal.getField, h, ih]

/-- Writing one key leaves every other key's value unchanged. -/
theorem getField_setField_other (fs : List (String × JSVal)) (k k2 : String)
    (v : JSVal) (h : k2 ≠ k) :
    JSVal.getField (JSVal.setField fs k v) k2 = JSVal.getField fs k2 := by
  induction fs with
  | nil => simp [JSVal.setField, JSVal.getField, Ne.symm h]
  | cons p rest ih =>
    obtain ⟨k1, v1⟩ := p
    by_cases h1 : k1 = k
    · subst h1
      simp [JSVal.setField, JSVal.getField, Ne.symm h]
    · simp [JSVal.setField, JSVal.getField, h1, ih]

/-- `setKey` at one key does not affect reads at another. -/
theorem getKey_setKey_other (t : JSVal) (k k2 : String) (v : JSVal)
    (h : k2 ≠ k) : JSVal.getKey (JSVal.setKey t k v) k2 = JSVal.getKey t k2 := by
  cases t <;> simp [JSVal.setKey, JSVal.getKey, getField_setField_other _ _ _ _ h]

/-- The object-field loop of `merge` only ever writes keys of the
source: a key outside the source's keys reads back unchanged. -/
theorem getKey_mergeFields_not_mem (d o : Bool) (sf : List (String × JSVal)) :
    ∀ (t : JSVal) (k : String), (∀ p ∈ sf, p.1 ≠ k) →
      JSVal.getKey (mergeFields d o t sf) k = JSVal.getKey t k := by
  induction sf with
  | nil => intro t k _; simp [mergeFields]
  | cons p rest ih =>
    intro t k h
    obtain ⟨k1, sv⟩ := p
    have hk1 : k1 ≠ k := h (k1, sv) (List.mem_cons_self _ _)
    rw [mergeFields]
    rw [ih _ k (fun q hq => h q (List.mem_cons_of_mem _ hq))]
    split_ifs <;>
      first
      | rfl
      | exact getKey_setKey_other _ _ _ _ (Ne.symm hk1)

/-- `merge` on two plain objects is the object-field loop. -/
theorem merge_obj_obj (d o : Bool) (tf sf : List (String × JSVal)) :
    merge d o (.obj false tf) (.obj false sf)
      = mergeFields d o (.obj false tf) sf := by
  simp [merge]

/-- C7 (amended): for every plain (non-array) target object and plain
source object, and every key not present in the source, the value of
that key in the result of `merge(target, source, options)` is unchanged,
for all four combinations of the `deep` and `overwrite` flags.  (As
stated the claim also covered arrays, where a shallow overwriting merge
returns the source and drops target-only indices.) -/
theorem merge_preserves_target_only_keys (deep overwrite : Bool)
    (tf sf : List (String × JSVal)) (k : String)
    (h : ∀ p ∈ sf, p.1 ≠ k) :
    JSVal.getKey (merge deep overwrite (.obj false tf) (.obj false sf)) k
      = JSVal.getKey (.obj false tf) k := by
  rw [merge_obj_obj]
  exact getKey_mergeFields_not_mem deep overwrite sf _ k h

/-- Witness for the amended C7 at concrete objects. -/
theorem merge_preserves_target_only_keys_witness :
    (∀ p ∈ [(("a" : String), JSVal.num 9)], p.1 ≠ "b") ∧
    JSVal.getKey
      (merge true true (.obj false [("b", .num 2)]) (.obj false [("a", .num 9)]))
      "b" = JSVal.getKey (.obj false [("b", .num 2)]) "b" :=
  ⟨by decide,
   merge_preserves_target_only_keys true true [("b", .num 2)]
     [("a", .num 9)] "b" (by decide)⟩

/-- Counterexample to C7 as stated: with `deep = false` and
`overwrite = true`, an array source replaces the array target wholesale,
so index `1` — present in the target and absent in the source — loses
its value. -/
theorem merge_frame_counterexample :
    JSVal.getKey (.obj true [("0", .num 1), ("1", .num 2)]) "1" = .num 2 ∧
    JSVal.getKey
      (merge false true (.obj true [("0", .num 1), ("1", .num 2)])
        (.obj true [("0", .num 9)])) "1" = .undefined ∧
    JSVal.undefined ≠ JSVal.num 2 := by
  refine ⟨rfl, rfl, ?_⟩
  simp

/-- Reading back the key just written on an object. -/
theorem getKey_setKey_self (a : Bool) (fs : List (String × JSVal))
    (k : String) (v : JSVal) :
    JSVal.getKey (JSVal.setKey (.obj a fs) k v) k = v := by
  simp [JSVal.setKey, JSVal.getKey, getField_setField_self]

/-- A source value that is not a plain object never enters the deep
object branch of the field loop. -/
theorem deep_branch_condition_false (sv : JSVal)
    (h : sv.isPlainObject = false) :
    (sv.truthy && sv.isObjectType && !sv.isArrayVal) = false := by
  cases sv with
  | obj a fs =>
    cases a with
    | false => simp [JSVal.isPlainObject] at h
    | true => simp [JSVal.truthy, JSVal.isObjectType, JSVal.isArrayVal]
  | undefined => rfl
  | null => rfl
  | bool b => simp [JSVal.truthy, JSVal.isObjectType]
  | num n => simp [JSVal.truthy, JSVal.isObjectType]
  | str s => simp [JSVal.truthy, JSVal.isObjectType]

/-- One step of the field loop, factored out. -/
theorem mergeFields_cons (d o : Bool) (t : JSVal) (p : String × JSVal)
    (rest : List (String × JSVal)) :
    mergeFields d o t (p :: rest)
      = mergeFields d o (mergeFields d o t [p]) rest := by
  obtain ⟨k1, sv1⟩ := p
  conv_lhs => rw [mergeFields]
  conv_rhs => rw [mergeFields, mergeFields]

/-- A single field-loop step on an object yields an object with the same
array flag. -/
theorem mergeFields_one_shape (d o : Bool) (a : Bool)
    (fs : List (String × JSVal)) (k1 : String) (sv1 : JSVal) :
    ∃ fs2, mergeFields d o (.obj a fs) [(k1, sv1)] = .obj a fs2 := by
  rw [mergeFields, mergeFields]
  split_ifs <;> exact ⟨_, rfl⟩

/-- A single field-loop step does not change reads at other keys. -/
theorem getKey_mergeFields_one_other (d o : Bool) (t : JSVal) (k1 : String)
    (sv1 : JSVal) (k : String) (h : k1 ≠ k) :
    JSVal.getKey (mergeFields d o t [(k1, sv1)]) k = JSVal.getKey t k :=
  getKey_mergeFields_not_mem d o [(k1, sv1)] t k (by simpa using h)

/-- The deep-branch condition with the `deep` flag in front. -/
theorem deep_branch_condition_false_of (d : Bool) (sv : JSVal)
    (hpl : sv.isPlainObject = false) :
    (d && sv.truthy && sv.isObjectType && !sv.isArrayVal) = false := by
  have h0 := deep_branch_condition_false sv hpl
  cases d
  · simp
  · simpa [Bool.and_assoc] using h0

/-- In the field loop with `overwrite = true`, a source key with a
non-plain-object value ends up holding exactly the source's value
(distinct source keys assumed, as for JavaScript objects). -/
theorem getKey_mergeFields_overwrite (d : Bool) :
    ∀ (sf : List (String × JSVal)) (a : Bool) (fs : List (String × JSVal))
      (k : String) (sv : JSVal),
      (sf.map Prod.fst).Nodup → (k, sv) ∈ sf → sv.isPlainObject = false →
      JSVal.getKey (mergeFields d true (.obj a fs) sf) k = sv := by
  intro sf
  induction sf with
  | nil => intro a fs k sv _ hmem _; simp at hmem
  | cons p rest ih =>
    intro a fs k sv hnd hmem hpl
    obtain ⟨k1, sv1⟩ := p
    rw [List.map_cons, List.nodup_cons] at hnd
    rw [mergeFields_cons]
    rcases List.mem_cons.mp hmem with heq | htail
    · obtain ⟨rfl, rfl⟩ := Prod.mk.injEq .. ▸ heq
      have hrest : ∀ q ∈ rest, q.1 ≠ k := by
        intro q hq hqk
        have hmm := List.mem_map_of_mem Prod.fst hq
        rw [hqk] at hmm
        exact hnd.1 hmm
      rw [getKey_mergeFields_not_mem d true rest _ k hrest]
      rw [mergeFields, mergeFields]
      rw [deep_branch_condition_false_of d sv hpl]
      simp only [Bool.false_eq_true, if_false, Bool.true_or, if_true]
      exact getKey_setKey_self a fs k sv
    · have hk1 : k1 ≠ k := by
        intro hqk
        have hmm := List.mem_map_of_mem Prod.fst htail
        rw [← hqk] at hmm
        exact hnd.1 hmm
      obtain ⟨fs2, hfs2⟩ := mergeFields_one_shape d true a fs k1 sv1
      rw [hfs2]
      exact ih a fs2 k sv hnd.2 htail hpl

/-- In the field loop with `overwrite = false`, a source key with a
non-plain-object value whose target value is defined keeps the target's
value. -/
theorem getKey_mergeFields_no_overwrite (d : Bool) :
    ∀ (sf : List (String × JSVal)) (a : Bool) (fs : List (String × JSVal))
      (k : String) (sv : JSVal),
      (sf.map Prod.fst).Nodup → (k, sv) ∈ sf → sv.isPlainObject = false →
      (JSVal.getField fs k).isUndefined = false →
      JSVal.getKey (mergeFields d false (.obj a fs) sf) k
        = JSVal.getField fs k := by
  intro sf
  induction sf with
  | nil => intro a fs k sv _ hmem _ _; simp at hmem
  | cons p rest ih =>
    intro a fs k sv hnd hmem hpl hdef
    obtain ⟨k1, sv1⟩ := p
    rw [List.map_cons, List.nodup_cons] at hnd
    rw [mergeFields_cons]
    rcases List.mem_cons.mp hmem with heq | htail
    · obtain ⟨rfl, rfl⟩ := Prod.mk.injEq .. ▸ heq
      have hrest : ∀ q ∈ rest, q.1 ≠ k := by
        intro q hq hqk
        have hmm := List.mem_map_of_mem Prod.fst hq
        rw [hqk] at hmm
        exact hnd.1 hmm
      rw [getKey_mergeFields_not_mem d false rest _ k hrest]
      rw [mergeFields, mergeFields]
      rw [deep_branch_condition_false_of d sv hpl]
      have htv : JSVal.getKey (.obj a fs) k = JSVal.getField fs k := rfl
      simp only [Bool.false_eq_true, if_false, Bool.false_or, htv, hdef]
    · have hk1 : k1 ≠ k := by
        intro hqk
        have hmm := List.mem_map_of_mem Prod.fst htail
        rw [← hqk] at hmm
        exact hnd.1 hmm
      obtain ⟨fs2, hfs2⟩ := mergeFields_one_shape d false a fs k1 sv1
      have hkeep : JSVal.getField fs2 k = JSVal.getField fs k := by
        have hh := getKey_mergeFields_one_other d false (.obj a fs) k1 sv1 k hk1
        rw [hfs2] at hh
        simpa [JSVal.getKey] using hh
      rw [hfs2]
      rw [ih a fs2 k sv hnd.2 htail hpl (by rw [hkeep]; exact hdef)]
      exact hkeep

/-- C1 (amended): for every target object, source object, and key
present in the source whose source value is *not* a non-null non-array
object (so simple values and arrays), `merge` with `overwrite = true`
(the default) stores exactly the source's value at that key, and with
`overwrite = false` a key whose target value is defined keeps the
target's value.  (As stated the claim also covered nested-object source
values, where the code drops the nested source content when the target
value is not an object, and overwrites defined target values even with
`overwrite = false`.)  Distinct source keys are assumed, as holds for
every JavaScript object. -/
theorem merge_source_wins_non_object_values (tf sf : List (String × JSVal))
    (k : String) (sv : JSVal) (hnd : (sf.map Prod.fst).Nodup)
    (hmem : (k, sv) ∈ sf) (hpl : sv.isPlainObject = false) :
    JSVal.getKey (mergeDefault (.obj false tf) (.obj false sf)) k = sv ∧
    (∀ deep : Bool, (JSVal.getKey (.obj false tf) k).isUndefined = false →
      JSVal.getKey (merge deep false (.obj false tf) (.obj false sf)) k
        = JSVal.getKey (.obj false tf) k) := by
  constructor
  · rw [mergeDefault, merge_obj_obj]
    exact getKey_mergeFields_overwrite true sf false tf k sv hnd hmem hpl
  · intro deep hdef
    rw [merge_obj_obj]
    exact getKey_mergeFields_no_overwrite deep sf false tf k sv hnd hmem hpl hdef

/-- Witness for the amended C1 at concrete objects. -/
theorem merge_source_wins_non_object_values_witness :
    (([(("a" : String), JSVal.num 7)].map Prod.fst).Nodup) ∧
    JSVal.getKey
        (mergeDefault (.obj false [("a", .num 1)]) (.obj false [("a", .num 7)]))
        "a" = .num 7 ∧
    JSVal.getKey
        (merge true false (.obj false [("a", .num 1)]) (.obj false [("a", .num 7)]))
        "a" = JSVal.getKey (.obj false [("a", .num 1)]) "a" :=
  ⟨by decide,
   (merge_source_wins_non_object_values [("a", .num 1)] [("a", .num 7)] "a"
     (.num 7) (by decide) (List.Mem.head _) rfl).1,
   (merge_source_wins_non_object_values [("a", .num 1)] [("a", .num 7)] "a"
     (.num 7) (by decide) (List.Mem.head _) rfl).2 true rfl⟩

/-- Counterexample to C1 as stated: deep-merging a nested object source
value onto a non-object target value stores `{}` and discards the
recursive merge.  With the default `overwrite = true` the result at the
key is the empty object rather than the source's nested value, and with
`overwrite = false` the defined target value is not kept either. -/
theorem merge_nested_object_counterexample :
    mergeDefault (.obj false [("a", .num 1)])
        (.obj false [("a", .obj false [("b", .num 2)])])
      = .obj false [("a", .obj false [])] ∧
    JSVal.getKey (mergeDefault (.obj false [("a", .num 1)])
        (.obj false [("a", .obj false [("b", .num 2)])])) "a"
      ≠ JSVal.getKey (.obj false [("a", .obj false [("b", .num 2)])]) "a" ∧
    JSVal.getKey (merge true false (.obj false [("a", .num 1)])
        (.obj false [("a", .obj false [("b", .num 2)])])) "a"
      ≠ JSVal.getKey (.obj false [("a", .num 1)]) "a" := by
  refine ⟨rfl, ?_, ?_⟩
  · show JSVal.obj false [] ≠ JSVal.obj false [("b", .num 2)]
    simp
  · show JSVal.obj false [] ≠ JSVal.num 1
    simp

/-- C2 (spec-modelled, `setPath.ts` absent from the sources): one trail
maintenance step appends the new sample exactly when it is farther than
the distance threshold from the last kept point, then keeps a point
exactly when the retention value is negative (retain forever) or the
point is no older than the retention window. -/
theorem updateTrail_membership (thr retention now : ℚ)
    (pts : List Trail.TrailPoint) (p q0 : Trail.TrailPoint)
    (hlast : pts.getLast? = some q0) (r : Trail.TrailPoint) :
    r ∈ Trail.updateTrail thr retention now pts p ↔
      ((r ∈ pts ∨ (r = p ∧ Trail.distSq q0 p > thr ^ 2)) ∧
       (retention < 0 ∨ now - r.t ≤ retention)) := by
  unfold Trail.updateTrail
  rw [hlast]
  by_cases hfar : Trail.distSq q0 p > thr ^ 2 <;>
    by_cases hret : retention < 0 <;>
    simp [hfar, hret, List.mem_filter, List.mem_append, or_and_right]

/-- Witness for C2 at a concrete trail, sample, and thresholds. -/
theorem updateTrail_membership_witness :
    ([(⟨0, 0, 0, 15⟩ : Trail.TrailPoint)].getLast?
        = some (⟨0, 0, 0, 15⟩ : Trail.TrailPoint)) ∧
    ((⟨2, 0, 0, 20⟩ : Trail.TrailPoint)
        ∈ Trail.updateTrail 1 10 20 [⟨0, 0, 0, 15⟩] ⟨2, 0, 0, 20⟩ ↔
      (((⟨2, 0, 0, 20⟩ : Trail.TrailPoint) ∈
          [(⟨0, 0, 0, 15⟩ : Trail.TrailPoint)] ∨
        ((⟨2, 0, 0, 20⟩ : Trail.TrailPoint) = ⟨2, 0, 0, 20⟩ ∧
          Trail.distSq ⟨0, 0, 0, 15⟩ ⟨2, 0, 0, 20⟩ > 1 ^ 2)) ∧
       ((10 : ℚ) < 0 ∨ (20 : ℚ) - (⟨2, 0, 0, 20⟩ : Trail.TrailPoint).t ≤ 10))) :=
  ⟨rfl,
   updateTrail_membership 1 10 20 [⟨0, 0, 0, 15⟩] ⟨2, 0, 0, 20⟩ ⟨0, 0, 0, 15⟩
     rfl ⟨2, 0, 0, 20⟩⟩

/-- C4 (amended with "when the map instance exists"): when the map
instance is present and an identifier is already registered, each of the
three point-creation functions warns, creates no scene object, leaves
the whole state unchanged apart from the log, and returns the
already-registered object. -/
theorem point_creation_existing_id (s : App.AppState) (id : String)
    (g : App.Graphic) (hm : s.mapInst = some ())
    (hg : Store.getGraphicMap s.registry id = some g) :
    (∀ (lng lat : ℚ) (name : Option String),
      App.setPointEntityByImg ⟨id, lng, lat, name⟩ s
        = (App.addLog s (App.pointExistsMsg id), some g)) ∧
    (∀ (url : String) (lng lat : ℚ) (h hd : Option ℚ),
      App.setPointByGlb ⟨id, url, lng, lat, h, hd⟩ s
        = (App.addLog s (App.pointExistsMsg id), some g)) ∧
    (∀ (baseUrl : String) (lng lat : ℚ) (h hd : Option ℚ),
      App.setDronePointByGlb baseUrl ⟨id, lng, lat, h, hd⟩ s
        = (App.addLog s (App.pointExistsMsg id), some g)) := by
  have hhas : Store.hasGraphicMap s.registry id = true := by
    simp only [Store.hasGraphicMap, Store.getGraphicMap] at hg ⊢
    rw [hg]
    rfl
  refine ⟨?_, ?_, ?_⟩ <;> intros <;>
    simp [App.setPointEntityByImg, App.setPointByGlb, App.setDronePointByGlb,
      hm, hhas, hg]

/-- Witness for the amended C4 at a concrete state and identifier. -/
theorem point_creation_existing_id_witness :
    stateWithMap.mapInst = some () ∧
    Store.getGraphicMap stateWithMap.registry "a" = some sampleGraphic ∧
    App.setPointEntityByImg ⟨"a", 1, 2, none⟩ stateWithMap
      = (App.addLog stateWithMap (App.pointExistsMsg "a"), some sampleGraphic) :=
  ⟨rfl, rfl,
   (point_creation_existing_id stateWithMap "a" sampleGraphic rfl rfl).1 1 2 none⟩

/-- Counterexample to C4 as stated: when the map instance in the store is
null, a call with an already-registered identifier returns null, not the
registered object (the null-map early return precedes the registry
check). -/
theorem point_creation_existing_id_counterexample :
    Store.hasGraphicMap stateNoMap.registry "a" = true ∧
    (App.setPointEntityByImg ⟨"a", 1, 2, none⟩ stateNoMap).2 = none ∧
    Store.getGraphicMap stateNoMap.registry "a" = some sampleGraphic ∧
    (none : Option App.Graphic) ≠ some sampleGraphic := by
  refine ⟨rfl, rfl, rfl, by simp⟩

/-- C6: with a null map instance in the store, every creation and update
function of the point/geometry/grid modules logs the missing-map message
and returns null (creation functions), false (update functions) or
undefined (grid functions), changing nothing but the console log — in
particular neither the graphic registry, nor the trail store, nor any
scene state. -/
theorem null_map_early_returns (s : App.AppState) (hm : s.mapInst = none) :
    (∀ o : App.ImgPointOptions,
      App.setPointEntityByImg o s = (App.addLog s App.mapMissingMsg, none)) ∧
    (∀ o : App.ImgPointOptions,
      App.setPointPrimitiveByImg o s = (App.addLog s App.mapMissingMsg, none)) ∧
    (∀ (rng : Nat → ℚ) (o : App.BatchOptions),
      App.setBatchPointsByImg rng o s = (App.addLog s App.mapMissingMsg, none)) ∧
    (∀ o : App.GlbOptions,
      App.setPointByGlb o s = (App.addLog s App.mapMissingMsg, none)) ∧
    (∀ (baseUrl : String) (o : App.DroneOptions),
      App.setDronePointByGlb baseUrl o s
        = (App.addLog s App.mapMissingMsg, none)) ∧
    (∀ o : App.ConeOptions,
      App.conicalWave o s = (App.addLog s App.mapMissingMsg, none)) ∧
    (∀ o : App.ConeUpdateOptions,
      App.updateConeLengthOrPosition o s
        = (App.addLog s App.mapMissingMsg, false)) ∧
    (∀ o : App.PoseUpdateOptions,
      App.updateConePose o s = (App.addLog s App.mapMissingMsg, false)) ∧
    (∀ o : App.PyramidOptions,
      App.rectangularPyramidWave o s = (App.addLog s App.mapMissingMsg, none)) ∧
    (∀ o : App.PoseUpdateOptions,
      App.updateRectangularPyramidWavePose o s
        = (App.addLog s App.mapMissingMsg, false)) ∧
    (∀ o : App.PyramidUpdateOptions,
      App.updateRectangularPyramidLengthOrPosition o s
        = (App.addLog s App.mapMissingMsg, false)) ∧
    (∀ o : App.GridOptions,
      App.createGridEffect o s = (App.addLog s App.mapMissingMsg, ())) ∧
    App.clearAirGrid s = (App.addLog s App.mapMissingMsg, ()) := by
  refine ⟨?_, ?_, ?_, ?_, ?_, ?_, ?_, ?_, ?_, ?_, ?_, ?_, ?_⟩ <;> intros <;>
    simp [App.setPointEntityByImg, App.setPointPrimitiveByImg,
      App.setBatchPointsByImg, App.setPointByGlb, App.setDronePointByGlb,
      App.conicalWave, App.updateConeLengthOrPosition, App.updateConePose,
      App.rectangularPyramidWave, App.updateRectangularPyramidWavePose,
      App.updateRectangularPyramidLengthOrPosition, App.createGridEffect,
      App.clearAirGrid, hm]

/-- Witness for C6 at a concrete null-map state and concrete options. -/
theorem null_map_early_returns_witness :
    stateNoMap.mapInst = none ∧
    App.setPointEntityByImg ⟨"x", 0, 0, none⟩ stateNoMap
      = (App.addLog stateNoMap App.mapMissingMsg, none) ∧
    App.updateConeLengthOrPosition ⟨"x", some 1, none⟩ stateNoMap
      = (App.addLog stateNoMap App.mapMissingMsg, false) ∧
    App.createGridEffect ⟨0, 0, 1, 1, 1, 0⟩ stateNoMap
      = (App.addLog stateNoMap App.mapMissingMsg, ()) :=
  ⟨rfl,
   (null_map_early_returns stateNoMap rfl).1 ⟨"x", 0, 0, none⟩,
   (null_map_early_returns stateNoMap rfl).2.2.2.2.2.2.1 ⟨"x", some 1, none⟩,
   (null_map_early_returns stateNoMap rfl).2.2.2.2.2.2.2.2.2.2.2.1
     ⟨0, 0, 1, 1, 1, 0⟩⟩

/-- `clear` always leaves the primitive reference null. -/
theorem voxel_clear_primitive_none (s : Voxel.VoxelGridState) :
    (Voxel.clear s).primitive = none := by
  cases hp : s.primitive <;> simp [Voxel.clear, hp]

/-- `clear` is idempotent. -/
theorem voxel_clear_idem (s : Voxel.VoxelGridState) :
    Voxel.clear (Voxel.clear s) = Voxel.clear s := by
  cases hp : s.primitive with
  | none => simp [Voxel.clear, hp]
  | some p =>
    have h1 : Voxel.clear s
        = ⟨s.nextId, s.scenePrimitives.erase p, none⟩ := by
      simp [Voxel.clear, hp]
    rw [h1]
    simp [Voxel.clear]

/-- `clear` preserves the voxel-grid invariant: identities bounded by the
counter, and the owned scene primitives being exactly the held one. -/
theorem voxel_clear_step (n0 : Nat) (s : Voxel.VoxelGridState)
    (h1 : n0 ≤ s.nextId)
    (h2 : ∀ p ∈ s.scenePrimitives, p.pid < s.nextId)
    (h3 : Voxel.ownedPrimitives n0 s = s.primitive.toList) :
    n0 ≤ (Voxel.clear s).nextId ∧
    (∀ p ∈ (Voxel.clear s).scenePrimitives, p.pid < (Voxel.clear s).nextId) ∧
    Voxel.ownedPrimitives n0 (Voxel.clear s)
      = (Voxel.clear s).primitive.toList := by
  cases hp : s.primitive with
  | none =>
    have he : Voxel.clear s = s := by simp [Voxel.clear, hp]
    rw [he]
    exact ⟨h1, h2, by rw [h3, hp]⟩
  | some p =>
    have he : Voxel.clear s
        = ⟨s.nextId, s.scenePrimitives.erase p, none⟩ := by
      simp [Voxel.clear, hp]
    rw [he]
    refine ⟨h1, ?_, ?_⟩
    · intro q hq
      exact h2 q (List.mem_of_mem_erase hq)
    · show Voxel.ownedPrimitives n0 ⟨s.nextId, s.scenePrimitives.erase p, none⟩
        = ([] : List Voxel.Primitive)
      unfold Voxel.ownedPrimitives at h3 ⊢
      rw [hp] at h3
      simp only at h3 ⊢
      rw [← List.erase_filter, h3]
      simp [Option.toList]

/-- `create` re-establishes the invariant with exactly the new primitive
owned. -/
theorem voxel_create_step (n0 : Nat) (engine : Voxel.Engine)
    (o : Voxel.VoxelGridOptions) (s : Voxel.VoxelGridState)
    (h1 : n0 ≤ s.nextId)
    (h2 : ∀ p ∈ s.scenePrimitives, p.pid < s.nextId)
    (h3 : Voxel.ownedPrimitives n0 s = s.primitive.toList) :
    n0 ≤ (Voxel.create engine o s).nextId ∧
    (∀ p ∈ (Voxel.create engine o s).scenePrimitives,
      p.pid < (Voxel.create engine o s).nextId) ∧
    Voxel.ownedPrimitives n0 (Voxel.create engine o s)
      = (Voxel.create engine o s).primitive.toList := by
  obtain ⟨g1, g2, g3⟩ := voxel_clear_step n0 s h1 h2 h3
  rw [voxel_clear_primitive_none s] at g3
  simp only [Option.toList] at g3
  refine ⟨?_, ?_, ?_⟩
  · show n0 ≤ (Voxel.clear s).nextId + 1
    exact Nat.le_succ_of_le g1
  · intro q hq
    rcases List.mem_append.mp hq with hold | hnew
    · exact Nat.lt_succ_of_lt (g2 q hold)
    · rw [List.mem_singleton.mp hnew]
      exact Nat.lt_succ_self _
  · show Voxel.ownedPrimitives n0
        ⟨(Voxel.clear s).nextId + 1,
         (Voxel.clear s).scenePrimitives
           ++ [⟨(Voxel.clear s).nextId, Voxel.voxelInstances engine o⟩],
         some ⟨(Voxel.clear s).nextId, Voxel.voxelInstances engine o⟩⟩
      = _
    unfold Voxel.ownedPrimitives at g3 ⊢
    simp only [List.filter_append, g3, List.nil_append, Option.toList]
    simp [g1, Voxel.create]

/-- The voxel-grid invariant is preserved by every call sequence. -/
theorem voxel_invariant (n0 : Nat) (ops : List Voxel.VoxelOp) :
    ∀ s : Voxel.VoxelGridState,
      n0 ≤ s.nextId →
      (∀ p ∈ s.scenePrimitives, p.pid < s.nextId) →
      Voxel.ownedPrimitives n0 s = s.primitive.toList →
      n0 ≤ (Voxel.runVoxelOps s ops).nextId ∧
      (∀ p ∈ (Voxel.runVoxelOps s ops).scenePrimitives,
        p.pid < (Voxel.runVoxelOps s ops).nextId) ∧
      Voxel.ownedPrimitives n0 (Voxel.runVoxelOps s ops)
        = (Voxel.runVoxelOps s ops).primitive.toList := by
  induction ops with
  | nil => intro s h1 h2 h3; exact ⟨h1, h2, h3⟩
  | cons op rest ih =>
    intro s h1 h2 h3
    cases op with
    | clear =>
      obtain ⟨g1, g2, g3⟩ := voxel_clear_step n0 s h1 h2 h3
      exact ih (Voxel.clear s) g1 g2 g3
    | create engine o =>
      obtain ⟨g1, g2, g3⟩ := voxel_create_step n0 engine o s h1 h2 h3
      exact ih (Voxel.create engine o s) g1 g2 g3

/-- C9: over every sequence of `create` and `clear` calls, a `VoxelGrid`
instance owns at most one live primitive in the scene (`create` removes
the previous primitive before adding the new one), and `clear` is
idempotent. -/
theorem voxel_at_most_one_primitive (s0 : Voxel.VoxelGridState)
    (ops : List Voxel.VoxelOp)
    (hfresh : ∀ p ∈ s0.scenePrimitives, p.pid < s0.nextId)
    (hinit : s0.primitive = none) :
    (Voxel.ownedPrimitives s0.nextId (Voxel.runVoxelOps s0 ops)).length ≤ 1 ∧
    (∀ s : Voxel.VoxelGridState, Voxel.clear (Voxel.clear s) = Voxel.clear s) := by
  constructor
  · have h0 : Voxel.ownedPrimitives s0.nextId s0 = s0.primitive.toList := by
      unfold Voxel.ownedPrimitives
      rw [hinit]
      simp only [Option.toList]
      rw [List.filter_eq_nil_iff]
      intro p hp
      simpa using Nat.not_le_of_lt (hfresh p hp)
    have hmain := voxel_invariant s0.nextId ops s0 le_rfl hfresh h0
    rw [hmain.2.2]
    cases (Voxel.runVoxelOps s0 ops).primitive <;> simp [Option.toList]
  · exact voxel_clear_idem

/-- Witness for C9 at a fresh state and a concrete call sequence. -/
theorem voxel_at_most_one_primitive_witness :
    (∀ p ∈ freshVoxelState.scenePrimitives, p.pid < freshVoxelState.nextId) ∧
    (Voxel.ownedPrimitives freshVoxelState.nextId
      (Voxel.runVoxelOps freshVoxelState
        [Voxel.VoxelOp.create sampleEngine sampleVoxelOptions,
         Voxel.VoxelOp.clear])).length ≤ 1 :=
  ⟨by simp [freshVoxelState],
   (voxel_at_most_one_primitive freshVoxelState
     [Voxel.VoxelOp.create sampleEngine sampleVoxelOptions,
      Voxel.VoxelOp.clear] (by simp [freshVoxelState]) rfl).1⟩

/-- Length of a `flatMap` whose blocks all have the same length. -/
theorem length_flatMap_const {α β : Type} (l : List α) (f : α → List β)
    (m : ℕ) (h : ∀ a ∈ l, (f a).length = m) :
    (l.flatMap f).length = l.length * m := by
  induction l with
  | nil => simp
  | cons a rest ih =>
    simp only [List.flatMap_cons, List.length_append, List.length_cons]
    rw [h a (List.mem_cons_self a rest),
      ih (fun b hb => h b (List.mem_cons_of_mem a hb))]
    ring

/-- Indexing into a `flatMap` over `range` with constant block length. -/
theorem getElem?_flatMap_range {β : Type} (m : ℕ) (f : ℕ → List β)
    (h : ∀ k, (f k).length = m) :
    ∀ (n i j : ℕ), i < n → j < m →
      ((List.range n).flatMap f)[i * m + j]? = (f i)[j]? := by
  intro n
  induction n with
  | zero => intro i j hi _; exact absurd hi (Nat.not_lt_zero i)
  | succ n ih =>
    intro i j hi hj
    rw [List.range_succ, List.flatMap_append]
    have hlen : ((List.range n).flatMap f).length = n * m := by
      rw [length_flatMap_const _ _ m (fun a _ => h a), List.length_range]
    by_cases hin : i < n
    · rw [List.getElem?_append_left]
      · exact ih i j hin hj
      · rw [hlen]
        have h1 : i * m + m ≤ n * m := by
          have h2 : (i + 1) * m ≤ n * m := Nat.mul_le_mul_right m hin
          calc i * m + m = (i + 1) * m := by ring
          _ ≤ n * m := h2
        omega
    · have hieq : i = n := by omega
      subst hieq
      rw [List.getElem?_append_right (by rw [hlen]; omega)]
      rw [hlen]
      simp only [List.flatMap_cons, List.flatMap_nil, List.append_nil]
      rw [Nat.add_sub_cancel_left]

/-- Cesium's optimised `multiplyByTranslation` agrees with the full
product with a translation matrix whenever the matrix's bottom row is
affine (`(0, 0, 0, w)`), as every east-north-up frame is. -/
theorem multiplyByTranslation_eq_matMul (m : Voxel.Matrix4)
    (t : Voxel.Cart3) (h30 : m.m30 = 0) (h31 : m.m31 = 0)
    (h32 : m.m32 = 0) :
    Voxel.multiplyByTranslation m t
      = Voxel.matMul m (Voxel.fromTranslation t) := by
  obtain ⟨a00, a01, a02, a03, a10, a11, a12, a13,
    a20, a21, a22, a23, a30, a31, a32, a33⟩ := m
  simp only at h30 h31 h32
  subst h30
  subst h31
  subst h32
  simp only [Voxel.multiplyByTranslation, Voxel.matMul,
    Voxel.fromTranslation, Voxel.Matrix4.mk.injEq]
  refine ⟨?_, ?_, ?_, ?_, ?_, ?_, ?_, ?_, ?_, ?_, ?_, ?_, ?_, ?_, ?_, ?_⟩ <;>
    ring

/-- C8: `VoxelGrid.create` builds exactly `countX · countY · countZ`
geometry instances (held by the freshly created primitive), and the
instance pushed for grid index `(x, y, z)` — at list position
`(x·countY + y)·countZ + z` of the `x`-outermost, `z`-innermost loop —
has a model matrix equal to the engine's east-north-up frame at the
origin point composed with a translation of `(x·voxelSize, y·voxelSize,
z·voxelSize)`.  The engine's frame always has an affine bottom row,
stated here as hypotheses on the uninterpreted frame. -/
theorem voxel_create_geometry (engine : Voxel.Engine)
    (o : Voxel.VoxelGridOptions) (s : Voxel.VoxelGridState) (x y z : ℕ)
    (hx : x < o.countX) (hy : y < o.countY) (hz : z < o.countZ)
    (h30 : (engine.eastNorthUpToFixedFrame
        (engine.fromDegrees o.lon o.lat o.baseHeight)).m30 = 0)
    (h31 : (engine.eastNorthUpToFixedFrame
        (engine.fromDegrees o.lon o.lat o.baseHeight)).m31 = 0)
    (h32 : (engine.eastNorthUpToFixedFrame
        (engine.fromDegrees o.lon o.lat o.baseHeight)).m32 = 0) :
    (Voxel.voxelInstances engine o).length
        = o.countX * o.countY * o.countZ ∧
    (Voxel.create engine o s).primitive
        = some ⟨(Voxel.clear s).nextId, Voxel.voxelInstances engine o⟩ ∧
    (Voxel.voxelInstances engine o)[(x * o.countY + y) * o.countZ + z]?
        = some { geometry := ⟨o.voxelSize, o.voxelSize, o.voxelSize⟩,
                 modelMatrix := Voxel.matMul
                   (engine.eastNorthUpToFixedFrame
                     (engine.fromDegrees o.lon o.lat o.baseHeight))
                   (Voxel.fromTranslation
                     ⟨x * o.voxelSize, y * o.voxelSize, z * o.voxelSize⟩),
                 colorAttr := o.color } := by
  have hinner : ∀ xv : ℕ,
      ((List.range o.countY).flatMap fun yv =>
        (List.range o.countZ).map fun zv =>
          Voxel.mkVoxelInstance
            (engine.eastNorthUpToFixedFrame
              (engine.fromDegrees o.lon o.lat o.baseHeight)) o xv yv zv).length
        = o.countY * o.countZ := by
    intro xv
    rw [length_flatMap_const _ _ o.countZ
      (fun a _ => by rw [List.length_map, List.length_range])]
    rw [List.length_range]
  refine ⟨?_, rfl, ?_⟩
  · simp only [Voxel.voxelInstances]
    rw [length_flatMap_const _ _ (o.countY * o.countZ)
      (fun a _ => hinner a)]
    rw [List.length_range, Nat.mul_assoc]
  · simp only [Voxel.voxelInstances]
    have hidx : (x * o.countY + y) * o.countZ + z
        = x * (o.countY * o.countZ) + (y * o.countZ + z) := by ring
    rw [hidx]
    rw [getElem?_flatMap_range (o.countY * o.countZ) _ hinner o.countX x
      (y * o.countZ + z) hx
      (by
        have h1 : y * o.countZ + z < (y + 1) * o.countZ := by
          have := hz
          calc y * o.countZ + z < y * o.countZ + o.countZ := by omega
          _ = (y + 1) * o.countZ := by ring
        have h2 : (y + 1) * o.countZ ≤ o.countY * o.countZ :=
          Nat.mul_le_mul_right o.countZ hy
        omega)]
    rw [getElem?_flatMap_range o.countZ _
      (fun k => by rw [List.length_map, List.length_range]) o.countY y z hy hz]
    rw [List.getElem?_map, List.getElem?_range hz]
    simp only [Option.map_some']
    rw [show Voxel.mkVoxelInstance
        (engine.eastNorthUpToFixedFrame
          (engine.fromDegrees o.lon o.lat o.baseHeight)) o x y z
      = { geometry := ⟨o.voxelSize, o.voxelSize, o.voxelSize⟩,
          modelMatrix := Voxel.multiplyByTranslation
            (engine.eastNorthUpToFixedFrame
              (engine.fromDegrees o.lon o.lat o.baseHeight))
            ⟨x * o.voxelSize, y * o.voxelSize, z * o.voxelSize⟩,
          colorAttr := o.color } from rfl]
    rw [multiplyByTranslation_eq_matMul _ _ h30 h31 h32]

/-- Witness for C8 at a concrete engine, options and grid index. -/
theorem voxel_create_geometry_witness :
    (1 < sampleVoxelOptions.countX) ∧
    ((sampleEngine.eastNorthUpToFixedFrame
        (sampleEngine.fromDegrees sampleVoxelOptions.lon
          sampleVoxelOptions.lat sampleVoxelOptions.baseHeight)).m30 = 0) ∧
    (Voxel.voxelInstances sampleEngine sampleVoxelOptions).length
      = sampleVoxelOptions.countX * sampleVoxelOptions.countY
          * sampleVoxelOptions.countZ :=
  ⟨by decide, rfl,
   (voxel_create_geometry sampleEngine sampleVoxelOptions freshVoxelState
     1 1 1 (by decide) (by decide) (by decide) rfl rfl rfl).1⟩

/-- Erasing, one by one, a block of distinct entities that was appended
to a collection restores the collection. -/
theorem foldl_erase_append (dl : List App.Entity) :
    ∀ base : List App.Entity, (∀ e ∈ dl, e ∉ base) → dl.Nodup →
      dl.foldl (fun es e => es.erase e) (base ++ dl) = base := by
  induction dl with
  | nil => intro base _ _; simp
  | cons a dl ih =>
    intro base hnin hnd
    show dl.foldl (fun es e => es.erase e) ((base ++ a :: dl).erase a) = base
    rw [List.erase_append_right _ (hnin a (List.mem_cons_self a dl)),
      List.erase_cons_head]
    exact ih base (fun e he => hnin e (List.mem_cons_of_mem a he)) hnd.of_cons

/-- The grid entities built from an index range have strictly increasing
identities. -/
theorem pairwise_eid_map_range (base n : Nat) (f : Nat → App.EntityDesc) :
    List.Pairwise (fun a b : App.Entity => a.eid < b.eid)
      ((List.range n).map fun i => (⟨base + i, f i⟩ : App.Entity)) :=
  List.Pairwise.map _
    (fun a b h => by simpa using Nat.add_lt_add_left h base)
    (List.pairwise_lt_range n)

/-- Identity bounds for the grid entities built from an index range. -/
theorem mem_map_range_eid (base n : Nat) (f : Nat → App.EntityDesc)
    (e : App.Entity)
    (he : e ∈ (List.range n).map fun i => (⟨base + i, f i⟩ : App.Entity)) :
    base ≤ e.eid ∧ e.eid < base + n := by
  obtain ⟨i, hi, rfl⟩ := List.mem_map.mp he
  have hin : i < n := List.mem_range.mp hi
  constructor
  · exact Nat.le_add_right base i
  · exact Nat.add_lt_add_left hin base

/-- The state after `createGridEffect` with a present map instance. -/
theorem createGridEffect_present (o : App.GridOptions) (s : App.AppState)
    (hm : s.mapInst = some ()) :
    (App.createGridEffect o s).1
      = { s with
          entities := s.entities
            ++ (((List.range (App.gridLineCount o.south o.north o.step)).map
                  fun i => (⟨s.nextId + i,
                    .gridLine true (o.south + i * o.step) o.west o.east
                      o.height⟩ : App.Entity))
              ++ ((List.range (App.gridLineCount o.west o.east o.step)).map
                  fun i => (⟨s.nextId + App.gridLineCount o.south o.north o.step
                      + i,
                    .gridLine false (o.west + i * o.step) o.south o.north
                      o.height⟩ : App.Entity))),
          gridEntities := s.gridEntities
            ++ (((List.range (App.gridLineCount o.south o.north o.step)).map
                  fun i => (⟨s.nextId + i,
                    .gridLine true (o.south + i * o.step) o.west o.east
                      o.height⟩ : App.Entity))
              ++ ((List.range (App.gridLineCount o.west o.east o.step)).map
                  fun i => (⟨s.nextId + App.gridLineCount o.south o.north o.step
                      + i,
                    .gridLine false (o.west + i * o.step) o.south o.north
                      o.height⟩ : App.Entity))),
          nextId := s.nextId + App.gridLineCount o.south o.north o.step
            + App.gridLineCount o.west o.east o.step } := by
  simp only [App.createGridEffect, hm]

/-- The invariant maintained by a sequence of `createGridEffect` calls:
a block of fresh, identity-increasing grid entities appended to both the
entity collection and the module-local list. -/
theorem grid_creates_invariant (s0 : App.AppState)
    (calls : List App.GridOptions) :
    ∀ s : App.AppState, s.mapInst = some () →
      (∃ dl : List App.Entity,
        s.entities = s0.entities ++ dl ∧ s.gridEntities = dl ∧
        s0.nextId ≤ s.nextId ∧
        (∀ e ∈ dl, s0.nextId ≤ e.eid ∧ e.eid < s.nextId) ∧
        List.Pairwise (fun a b : App.Entity => a.eid < b.eid) dl) →
      (calls.foldl (fun st o => (App.createGridEffect o st).1) s).mapInst
          = some () ∧
      ∃ dl : List App.Entity,
        (calls.foldl (fun st o => (App.createGridEffect o st).1) s).entities
            = s0.entities ++ dl ∧
        (calls.foldl (fun st o => (App.createGridEffect o st).1) s).gridEntities
            = dl ∧
        s0.nextId
            ≤ (calls.foldl (fun st o => (App.createGridEffect o st).1) s).nextId ∧
        (∀ e ∈ dl, s0.nextId ≤ e.eid ∧
          e.eid < (calls.foldl (fun st o => (App.createGridEffect o st).1) s).nextId) ∧
        List.Pairwise (fun a b : App.Entity => a.eid < b.eid) dl := by
  induction calls with
  | nil => intro s hm hinv; exact ⟨hm, hinv⟩
  | cons o rest ih =>
    intro s hm hinv
    obtain ⟨dl, hent, hge, hle, hbnd, hpair⟩ := hinv
    have hs' := createGridEffect_present o s hm
    set nLat := App.gridLineCount o.south o.north o.step with hnLat
    set nLon := App.gridLineCount o.west o.east o.step with hnLon
    set latEnts := (List.range nLat).map
      fun i => (⟨s.nextId + i,
        .gridLine true (o.south + i * o.step) o.west o.east o.height⟩
          : App.Entity) with hlatEnts
    set lonEnts := (List.range nLon).map
      fun i => (⟨s.nextId + nLat + i,
        .gridLine false (o.west + i * o.step) o.south o.north o.height⟩
          : App.Entity) with hlonEnts
    simp only [List.foldl_cons]
    rw [hs']
    apply ih
    · exact hm
    · refine ⟨dl ++ (latEnts ++ lonEnts), ?_, ?_, ?_, ?_, ?_⟩
      · simp only [hent]
        rw [List.append_assoc]
      · simp only [hge]
      · simp only
        omega
      · intro e he
        rcases List.mem_append.mp he with hd | hnew
        · have := hbnd e hd
          simp only
          omega
        · rcases List.mem_append.mp hnew with hlat | hlon
          · have := mem_map_range_eid s.nextId nLat _ e hlat
            simp only
            omega
          · have := mem_map_range_eid (s.nextId + nLat) nLon _ e hlon
            simp only
            omega
      · rw [List.pairwise_append]
        refine ⟨hpair, ?_, ?_⟩
        · rw [List.pairwise_append]
          refine ⟨pairwise_eid_map_range s.nextId nLat _,
            pairwise_eid_map_range (s.nextId + nLat) nLon _, ?_⟩
          intro a ha b hb
          have h1 := mem_map_range_eid s.nextId nLat _ a ha
          have h2 := mem_map_range_eid (s.nextId + nLat) nLon _ b hb
          omega
        · intro a ha b hb
          have h1 := hbnd a ha
          rcases List.mem_append.mp hb with hlat | hlon
          · have h2 := mem_map_range_eid s.nextId nLat _ b hlat
            omega
          · have h2 := mem_map_range_eid (s.nextId + nLat) nLon _ b hlon
            omega

/-- C10: with a present map instance, a `clearAirGrid` after any number
of `createGridEffect` calls (positive step, as the source loop requires
to terminate) removes exactly the entities those calls added — the
entity collection returns to its prior state — and empties the
module-local `gridEntities` list. -/
theorem grid_create_clear_roundtrip (s : App.AppState)
    (calls : List App.GridOptions) (hm : s.mapInst = some ())
    (hge : s.gridEntities = [])
    (hfresh : ∀ e ∈ s.entities, e.eid < s.nextId)
    (_hstep : ∀ o ∈ calls, 0 < o.step) :
    (App.clearAirGrid
        (calls.foldl (fun st o => (App.createGridEffect o st).1) s)).1.entities
      = s.entities ∧
    (App.clearAirGrid
        (calls.foldl (fun st o => (App.createGridEffect o st).1) s)).1.gridEntities
      = [] := by
  obtain ⟨hm1, dl, hent, hgrd, hle, hbnd, hpair⟩ :=
    grid_creates_invariant s calls s hm
      ⟨[], by simp, hge, le_rfl, by simp, List.Pairwise.nil⟩
  set s1 := calls.foldl (fun st o => (App.createGridEffect o st).1) s with hs1
  have hclr : (App.clearAirGrid s1).1
      = { s1 with
          entities := s1.gridEntities.foldl (fun es e => es.erase e) s1.entities,
          gridEntities := [] } := by
    simp only [App.clearAirGrid, hm1]
  rw [hclr]
  refine ⟨?_, rfl⟩
  simp only [hgrd, hent]
  apply foldl_erase_append
  · intro e he hmem
    have h1 := hbnd e he
    have h2 := hfresh e hmem
    omega
  · exact List.Pairwise.imp
      (fun h heq => by rw [heq] at h; exact lt_irrefl _ h) hpair

/-- Witness for C10 at a concrete state and one concrete grid call. -/
theorem grid_create_clear_roundtrip_witness :
    stateWithMap.gridEntities = [] ∧
    (∀ o ∈ [(⟨0, 0, 1, 1, 1, 0⟩ : App.GridOptions)], 0 < o.step) ∧
    (App.clearAirGrid
        ([(⟨0, 0, 1, 1, 1, 0⟩ : App.GridOptions)].foldl
          (fun st o => (App.createGridEffect o st).1) stateWithMap)).1.entities
      = stateWithMap.entities :=
  ⟨rfl, by decide,
   (grid_create_clear_roundtrip stateWithMap [⟨0, 0, 1, 1, 1, 0⟩] rfl rfl
     (by intro e he; simp [stateWithMap, stateNoMap] at he) (by decide)).1⟩

end Theorems

end CesiumLearn
